import Mathlib

/-!
Verification of the `options` package file `datakeyoptions.go` of the
mongo-go-driver repository: the `DataKeyOptions` record, the
`DataKeyOptionsBuilder` accumulator of deferred mutations, its factory
`DataKey`, its accessor `List`, and the three setters `SetMasterKey`,
`SetKeyAltNames` and `SetKeyMaterial`.

Embedding choices, taken from the Go source:
- Go's `interface{}` master-key value is modelled by `Option α` for an
  arbitrary payload type `α`; the Go `nil` interface value is `none`,
  which is also the zero value of the field.
- Go's `[]string` is `List String` and `[]byte` is `List Nat`; the Go
  `nil` slice and the empty slice are both `[]` (no claim distinguishes
  them).
- A deferred mutation has Go type `func(*DataKeyOptions) error`: it
  updates the record in place and returns an error or `nil`.  It is
  modelled as `DataKeyOptions α → Except String (DataKeyOptions α)`,
  where `Except.ok o` is the in-place update to `o` together with a
  `nil` error, and `Except.error e` is a failing mutation.
- The builder methods mutate the builder through a pointer and return
  that same pointer.  The per-cell effect is modelled by value-passing
  functions on `DataKeyOptionsBuilder`; pointer identity itself is
  modelled separately by a small heap of builder cells addressed by
  `Nat`, with each heap-level operation returning the address it
  produces, exactly as the Go methods return `dk`.
-/

namespace options

/-- `DataKeyOptions` from the source: the materialized configuration record,
with fields `MasterKey` (`interface{}`), `KeyAltNames` (`[]string`) and
`KeyMaterial` (`[]byte`). -/
structure DataKeyOptions (α : Type) where
  MasterKey : Option α
  KeyAltNames : List String
  KeyMaterial : List Nat
deriving Repr, DecidableEq

/-- The type of a deferred mutation, Go's `func(*DataKeyOptions) error`. -/
abbrev Mutation (α : Type) := DataKeyOptions α → Except String (DataKeyOptions α)

/-- The zero value of `DataKeyOptions`: what Go's `&DataKeyOptions{}` holds
(`nil` interface, `nil` slices). -/
def DataKeyOptions.zero : DataKeyOptions α := ⟨none, [], []⟩

/-- `DataKeyOptionsBuilder` from the source: it holds the ordered slice
`Opts` of deferred mutation functions. -/
structure DataKeyOptionsBuilder (α : Type) where
  Opts : List (Mutation α)

/-- `DataKey()` from the source: a fresh builder, `&DataKeyOptionsBuilder{}`,
whose `Opts` slice is empty. -/
def DataKey : DataKeyOptionsBuilder α := ⟨[]⟩

/-- `SetMasterKey` from the source: appends to `dk.Opts` the closure
`func(opts *DataKeyOptions) error { opts.MasterKey = masterKey; return nil }`
and returns the builder. -/
def DataKeyOptionsBuilder.SetMasterKey (dk : DataKeyOptionsBuilder α)
    (masterKey : Option α) : DataKeyOptionsBuilder α :=
  ⟨dk.Opts ++ [fun opts => Except.ok { opts with MasterKey := masterKey }]⟩

/-- `SetKeyAltNames` from the source: appends to `dk.Opts` the closure
assigning `keyAltNames` to `opts.KeyAltNames` and returning `nil`, and
returns the builder. -/
def DataKeyOptionsBuilder.SetKeyAltNames (dk : DataKeyOptionsBuilder α)
    (keyAltNames : List String) : DataKeyOptionsBuilder α :=
  ⟨dk.Opts ++ [fun opts => Except.ok { opts with KeyAltNames := keyAltNames }]⟩

/-- `SetKeyMaterial` from the source: appends to `dk.Opts` the closure
assigning `keyMaterial` to `opts.KeyMaterial` and returning `nil`, and
returns the builder. -/
def DataKeyOptionsBuilder.SetKeyMaterial (dk : DataKeyOptionsBuilder α)
    (keyMaterial : List Nat) : DataKeyOptionsBuilder α :=
  ⟨dk.Opts ++ [fun opts => Except.ok { opts with KeyMaterial := keyMaterial }]⟩

/-- `List()` from the source: returns `dk.Opts`. -/
def DataKeyOptionsBuilder.List (dk : DataKeyOptionsBuilder α) :
    List (Mutation α) := dk.Opts

/-- Modelled from the spec: the downstream key-creation operation (not part
of the reviewed source file) applies the deferred mutations returned by
`List()` strictly in order to a fresh options record, and "application must
stop at the first failure" (halt-on-first-error). -/
def applyOpts (fns : List (Mutation α)) (o : DataKeyOptions α) :
    Except String (DataKeyOptions α) :=
  match fns with
  | [] => Except.ok o
  | f :: rest =>
    match f o with
    | Except.ok o2 => applyOpts rest o2
    | Except.error e => Except.error e

/-- One setter call with its argument, used to quantify over arbitrary
sequences of setter calls on a builder. -/
inductive SetterCall (α : Type) where
  | masterKey (x : Option α)
  | keyAltNames (ns : List String)
  | keyMaterial (bs : List Nat)

/-- The mutation closure that the setter corresponding to a given call
appends to the builder's `Opts` slice. -/
def mutationOf : SetterCall α → Mutation α
  | SetterCall.masterKey x => fun opts => Except.ok { opts with MasterKey := x }
  | SetterCall.keyAltNames ns => fun opts => Except.ok { opts with KeyAltNames := ns }
  | SetterCall.keyMaterial bs => fun opts => Except.ok { opts with KeyMaterial := bs }

/-- Perform one setter call on a builder. -/
def applyCall (dk : DataKeyOptionsBuilder α) : SetterCall α → DataKeyOptionsBuilder α
  | SetterCall.masterKey x => dk.SetMasterKey x
  | SetterCall.keyAltNames ns => dk.SetKeyAltNames ns
  | SetterCall.keyMaterial bs => dk.SetKeyMaterial bs

/-- Perform a sequence of setter calls on a fresh builder, in order. -/
def runCalls (cs : List (SetterCall α)) : DataKeyOptionsBuilder α :=
  cs.foldl applyCall DataKey

/-- The direct field update a single setter call performs on an options
record. -/
def step (o : DataKeyOptions α) : SetterCall α → DataKeyOptions α
  | SetterCall.masterKey x => { o with MasterKey := x }
  | SetterCall.keyAltNames ns => { o with KeyAltNames := ns }
  | SetterCall.keyMaterial bs => { o with KeyMaterial := bs }

/-- The options record produced by folding a call sequence over a starting
record, field by field. -/
def resolve (cs : List (SetterCall α)) (o : DataKeyOptions α) : DataKeyOptions α :=
  cs.foldl step o

/-- The master-key argument of a call, when it is a `SetMasterKey` call. -/
def pickMasterKey : SetterCall α → Option (Option α)
  | SetterCall.masterKey x => some x
  | _ => none

/-- The names argument of a call, when it is a `SetKeyAltNames` call. -/
def pickKeyAltNames : SetterCall α → Option (List String)
  | SetterCall.keyAltNames ns => some ns
  | _ => none

/-- The bytes argument of a call, when it is a `SetKeyMaterial` call. -/
def pickKeyMaterial : SetterCall α → Option (List Nat)
  | SetterCall.keyMaterial bs => some bs
  | _ => none

theorem runCalls_aux (cs : List (SetterCall α)) :
    ∀ b : DataKeyOptionsBuilder α,
      (cs.foldl applyCall b).Opts = b.Opts ++ cs.map mutationOf := by
  induction cs with
  | nil => intro b; simp
  | cons c cs ih =>
    intro b
    cases c <;>
      simp [List.foldl_cons, ih, applyCall, DataKeyOptionsBuilder.SetMasterKey,
        DataKeyOptionsBuilder.SetKeyAltNames, DataKeyOptionsBuilder.SetKeyMaterial,
        mutationOf, List.append_assoc]

theorem runCalls_opts (cs : List (SetterCall α)) :
    (runCalls cs).Opts = cs.map mutationOf := by
  simpa [runCalls, DataKey] using runCalls_aux cs DataKey

theorem runCalls_list (cs : List (SetterCall α)) :
    (runCalls cs).List = cs.map mutationOf := runCalls_opts cs

theorem applyOpts_map_mutationOf (cs : List (SetterCall α)) :
    ∀ o : DataKeyOptions α,
      applyOpts (cs.map mutationOf) o = Except.ok (resolve cs o) := by
  induction cs with
  | nil => intro o; simp [applyOpts, resolve]
  | cons c cs ih =>
    intro o
    cases c <;> simp [applyOpts, mutationOf, resolve, List.foldl_cons, step, ih]

theorem resolve_cons (c : SetterCall α) (cs : List (SetterCall α))
    (o : DataKeyOptions α) : resolve (c :: cs) o = resolve cs (step o c) := rfl

theorem resolve_masterKey (cs : List (SetterCall α)) :
    ∀ o : DataKeyOptions α,
      (resolve cs o).MasterKey = (cs.filterMap pickMasterKey).getLastD o.MasterKey := by
  induction cs with
  | nil => intro o; rfl
  | cons c cs ih =>
    intro o
    rw [resolve_cons, ih]
    cases c <;>
      simp only [List.filterMap_cons, pickMasterKey, List.getLastD_cons, step]

theorem resolve_keyAltNames (cs : List (SetterCall α)) :
    ∀ o : DataKeyOptions α,
      (resolve cs o).KeyAltNames = (cs.filterMap pickKeyAltNames).getLastD o.KeyAltNames := by
  induction cs with
  | nil => intro o; rfl
  | cons c cs ih =>
    intro o
    rw [resolve_cons, ih]
    cases c <;>
      simp only [List.filterMap_cons, pickKeyAltNames, List.getLastD_cons, step]

theorem resolve_keyMaterial (cs : List (SetterCall α)) :
    ∀ o : DataKeyOptions α,
      (resolve cs o).KeyMaterial = (cs.filterMap pickKeyMaterial).getLastD o.KeyMaterial := by
  induction cs with
  | nil => intro o; rfl
  | cons c cs ih =>
    intro o
    rw [resolve_cons, ih]
    cases c <;>
      simp only [List.filterMap_cons, pickKeyMaterial, List.getLastD_cons, step]

/-- A heap of builder cells, modelling Go pointers to
`DataKeyOptionsBuilder`: an address is an index into the list of allocated
cells. -/
structure Heap (α : Type) where
  cells : List (DataKeyOptionsBuilder α)

/-- Read the builder a pointer refers to. -/
def Heap.get (h : Heap α) (a : Nat) : DataKeyOptionsBuilder α :=
  h.cells.getD a ⟨[]⟩

/-- Overwrite the builder a pointer refers to. -/
def Heap.put (h : Heap α) (a : Nat) (b : DataKeyOptionsBuilder α) : Heap α :=
  ⟨h.cells.set a b⟩

/-- `DataKey()` at the heap level: allocate a fresh builder cell and return
the new heap together with the pointer to the cell. -/
def heapDataKey (h : Heap α) : Heap α × Nat :=
  (⟨h.cells ++ [⟨[]⟩]⟩, h.cells.length)

/-- `dk.SetMasterKey(x)` at the heap level: update the pointed-to builder in
place and return the receiver pointer `dk` itself, as the Go method's
`return dk` does. -/
def heapSetMasterKey (h : Heap α) (a : Nat) (x : Option α) : Heap α × Nat :=
  (h.put a ((h.get a).SetMasterKey x), a)

/-- `dk.SetKeyAltNames(ns)` at the heap level: update the pointed-to builder
in place and return the receiver pointer `dk` itself. -/
def heapSetKeyAltNames (h : Heap α) (a : Nat) (ns : List String) : Heap α × Nat :=
  (h.put a ((h.get a).SetKeyAltNames ns), a)

/-- `dk.SetKeyMaterial(bs)` at the heap level: update the pointed-to builder
in place and return the receiver pointer `dk` itself. -/
def heapSetKeyMaterial (h : Heap α) (a : Nat) (bs : List Nat) : Heap α × Nat :=
  (h.put a ((h.get a).SetKeyMaterial bs), a)

/-- `dk.List()` at the heap level: read the pointed-to builder's `Opts`
slice; the heap comes back unchanged, since the Go method only reads. -/
def heapList (h : Heap α) (a : Nat) : List (Mutation α) × Heap α :=
  ((h.get a).List, h)

/-- The identity mutation, used only as the default of `List.getLastD` when
selecting the mutation a setter just appended. -/
def idMutation : Mutation α := fun o => Except.ok o

theorem getLastD_concat_eq {β : Type _} (l : List β) (x : β) :
    ∀ d : β, (l ++ [x]).getLastD d = x := by
  induction l with
  | nil => intro d; rfl
  | cons a l ih => intro d; rw [List.cons_append, List.getLastD_cons]; exact ih a

/-- C1: for every sequence of setter calls on a builder, applying the
deferred mutations returned by `List()` in order to a fresh zero-valued
`DataKeyOptions` succeeds and yields a record in which each field equals the
last value passed to the corresponding setter (last-writer-wins), fields
whose setter was never called keeping their zero values. -/
theorem c1_last_writer_wins (cs : List (SetterCall α)) :
    applyOpts (runCalls cs).List DataKeyOptions.zero =
      Except.ok
        { MasterKey := (cs.filterMap pickMasterKey).getLastD none
          KeyAltNames := (cs.filterMap pickKeyAltNames).getLastD []
          KeyMaterial := (cs.filterMap pickKeyMaterial).getLastD [] } := by
  rw [runCalls_list cs, applyOpts_map_mutationOf cs DataKeyOptions.zero]
  have he : resolve cs DataKeyOptions.zero =
      ⟨(resolve cs DataKeyOptions.zero).MasterKey,
        (resolve cs DataKeyOptions.zero).KeyAltNames,
        (resolve cs DataKeyOptions.zero).KeyMaterial⟩ := rfl
  rw [he, resolve_masterKey, resolve_keyAltNames, resolve_keyMaterial]
  rfl

/-- C2: for every sequence of setter calls, `List()` returns exactly the
mutations appended so far — one per setter call, in call order — and at the
heap level `List()` leaves the builder unchanged, so repeated calls return
identical results. -/
theorem c2_list_exact (cs : List (SetterCall α)) (h : Heap α) (a : Nat) :
    (runCalls cs).List = cs.map mutationOf ∧
    (runCalls cs).List.length = cs.length ∧
    (heapList h a).2 = h ∧
    (heapList (heapList h a).2 a).1 = (heapList h a).1 := by
  refine ⟨runCalls_list cs, ?_, rfl, rfl⟩
  rw [runCalls_list cs]
  exact List.length_map cs mutationOf

/-- C3: every mutation appended by the three setters returns a `nil` error
(`Except.ok`) on every options record: the error branch of the generic
mutation signature is unreachable for mutations this module constructs. -/
theorem c3_mutations_never_fail (cs : List (SetterCall α)) (f : Mutation α)
    (hf : f ∈ (runCalls cs).List) (o : DataKeyOptions α) :
    ∃ r, f o = Except.ok r := by
  rw [runCalls_list cs] at hf
  obtain ⟨c, _, rfl⟩ := List.mem_map.mp hf
  cases c <;> exact ⟨_, rfl⟩

/-- Witness for C3: the mutation appended by a concrete `SetMasterKey` call
returns `ok` on the zero record. -/
theorem c3_witness :
    ∃ r, mutationOf (SetterCall.masterKey (none : Option Unit))
      DataKeyOptions.zero = Except.ok r :=
  c3_mutations_never_fail [SetterCall.masterKey none]
    (mutationOf (SetterCall.masterKey none))
    (by rw [runCalls_list]; exact List.mem_singleton.mpr rfl)
    DataKeyOptions.zero

/-- C4: a freshly created builder (`DataKey()`, the spec's `Create()`) has an
empty deferred-mutation sequence, and applying that empty sequence to a
fresh record yields `MasterKey == nil`, `KeyAltNames` and `KeyMaterial`
empty. -/
theorem c4_fresh_builder_empty :
    (DataKey : DataKeyOptionsBuilder α).List = [] ∧
    applyOpts (DataKey : DataKeyOptionsBuilder α).List DataKeyOptions.zero =
      Except.ok { MasterKey := none, KeyAltNames := [], KeyMaterial := [] } :=
  ⟨rfl, rfl⟩

/-- C5: `SetKeyAltNames(names)` then apply yields `KeyAltNames` exactly equal
to `names` — same elements, same order, no dedup, no sort — including the
spec's example with `["a", "b"]`. -/
theorem c5_keyAltNames_exact (names : List String) :
    applyOpts ((DataKey : DataKeyOptionsBuilder α).SetKeyAltNames names).List
      DataKeyOptions.zero =
      Except.ok { MasterKey := none, KeyAltNames := names, KeyMaterial := [] } ∧
    applyOpts ((DataKey : DataKeyOptionsBuilder Unit).SetKeyAltNames
      ["a", "b"]).List DataKeyOptions.zero =
      Except.ok { MasterKey := none, KeyAltNames := ["a", "b"], KeyMaterial := [] } :=
  ⟨rfl, rfl⟩

/-- C6: `SetKeyMaterial(bytes)` then apply yields `KeyMaterial` byte-for-byte
equal to the input, the zero-length (Go `nil`/empty) sequence included. -/
theorem c6_keyMaterial_exact (bs : List Nat) :
    applyOpts ((DataKey : DataKeyOptionsBuilder α).SetKeyMaterial bs).List
      DataKeyOptions.zero =
      Except.ok { MasterKey := none, KeyAltNames := [], KeyMaterial := bs } ∧
    applyOpts ((DataKey : DataKeyOptionsBuilder Unit).SetKeyMaterial []).List
      DataKeyOptions.zero =
      Except.ok { MasterKey := none, KeyAltNames := [], KeyMaterial := [] } :=
  ⟨rfl, rfl⟩

/-- C7: applying a builder's deferred sequence to a fresh zero-valued record
always succeeds with the one record `resolve cs DataKeyOptions.zero`, a
function of the call sequence alone; hence any number of applications to
fresh records produce the same `DataKeyOptions` value every time. -/
theorem c7_deterministic (cs : List (SetterCall α)) :
    applyOpts (runCalls cs).List DataKeyOptions.zero =
      Except.ok (resolve cs DataKeyOptions.zero) := by
  rw [runCalls_list cs]
  exact applyOpts_map_mutationOf cs DataKeyOptions.zero

/-- C8: at the heap level each setter returns the very pointer it was called
on, so a chain such as `b.SetMasterKey(x).SetKeyAltNames(y)` operates on,
and evaluates to, the same builder instance `b`. -/
theorem c8_setters_return_receiver (h : Heap α) (a : Nat) (x : Option α)
    (ns : List String) (bs : List Nat) :
    (heapSetMasterKey h a x).2 = a ∧
    (heapSetKeyAltNames h a ns).2 = a ∧
    (heapSetKeyMaterial h a bs).2 = a ∧
    (heapSetKeyAltNames (heapSetMasterKey h a x).1
      (heapSetMasterKey h a x).2 ns).2 = a :=
  ⟨rfl, rfl, rfl, rfl⟩

/-- C9: frame property — the mutation each setter appends assigns only its
own field: the `SetMasterKey` mutation preserves `KeyAltNames` and
`KeyMaterial`, the `SetKeyAltNames` mutation preserves `MasterKey` and
`KeyMaterial`, and the `SetKeyMaterial` mutation preserves `MasterKey` and
`KeyAltNames`, on every options record. -/
theorem c9_frame (b : DataKeyOptionsBuilder α) (x : Option α)
    (ns : List String) (bs : List Nat) (o : DataKeyOptions α) :
    (∃ r, (b.SetMasterKey x).List.getLastD idMutation o = Except.ok r ∧
      r.KeyAltNames = o.KeyAltNames ∧ r.KeyMaterial = o.KeyMaterial) ∧
    (∃ r, (b.SetKeyAltNames ns).List.getLastD idMutation o = Except.ok r ∧
      r.MasterKey = o.MasterKey ∧ r.KeyMaterial = o.KeyMaterial) ∧
    (∃ r, (b.SetKeyMaterial bs).List.getLastD idMutation o = Except.ok r ∧
      r.MasterKey = o.MasterKey ∧ r.KeyAltNames = o.KeyAltNames) := by
  refine ⟨⟨{ o with MasterKey := x }, ?_, rfl, rfl⟩,
    ⟨{ o with KeyAltNames := ns }, ?_, rfl, rfl⟩,
    ⟨{ o with KeyMaterial := bs }, ?_, rfl, rfl⟩⟩
  · show ((b.Opts ++
        [(fun opts => Except.ok { opts with MasterKey := x } :
          Mutation α)]).getLastD idMutation) o = _
    rw [getLastD_concat_eq]
  · show ((b.Opts ++
        [(fun opts => Except.ok { opts with KeyAltNames := ns } :
          Mutation α)]).getLastD idMutation) o = _
    rw [getLastD_concat_eq]
  · show ((b.Opts ++
        [(fun opts => Except.ok { opts with KeyMaterial := bs } :
          Mutation α)]).getLastD idMutation) o = _
    rw [getLastD_concat_eq]

/-- C10: two setter calls that target different fields commute — applying the
two-mutation sequences built in either call order to a fresh zero-valued
record produces the same final options record, for all three pairs of
distinct fields. -/
theorem c10_distinct_fields_commute (x : Option α) (ns : List String)
    (bs : List Nat) :
    applyOpts (((DataKey : DataKeyOptionsBuilder α).SetMasterKey x).SetKeyAltNames
        ns).List DataKeyOptions.zero =
      applyOpts (((DataKey : DataKeyOptionsBuilder α).SetKeyAltNames ns).SetMasterKey
        x).List DataKeyOptions.zero ∧
    applyOpts (((DataKey : DataKeyOptionsBuilder α).SetMasterKey x).SetKeyMaterial
        bs).List DataKeyOptions.zero =
      applyOpts (((DataKey : DataKeyOptionsBuilder α).SetKeyMaterial bs).SetMasterKey
        x).List DataKeyOptions.zero ∧
    applyOpts (((DataKey : DataKeyOptionsBuilder α).SetKeyAltNames ns).SetKeyMaterial
        bs).List DataKeyOptions.zero =
      applyOpts (((DataKey : DataKeyOptionsBuilder α).SetKeyMaterial bs).SetKeyAltNames
        ns).List DataKeyOptions.zero :=
  ⟨rfl, rfl, rfl⟩

end options
